import Mathlib

/-!
Verification of the early-risk flag engine.

The repository computes rule-based credit-risk flags over a tabular input.
The flag computation is duplicated between a batch module (risk_utils.py,
`compute_flags`) and an HTTP-serving module (server.py, `compute_flags`).
This file gives a shallow embedding of both copies and proves or refutes
the specified properties.

Modelling conventions (pandas semantics):
- a cell of a numeric column is either a number (`Cell.num`), a non-numeric
  value that `pd.to_numeric(errors="coerce")` turns into NaN (`Cell.nonnum`),
  or NaN itself (`Cell.missing`); post-coercion series cells are `Option ℚ`
  with `none` standing for NaN;
- `Series.max()` skips NaN, and `NaN > c` / `NaN <= c` compare as `False`;
- `fillna v` replaces `none` by `v`; `clip(0,1)` leaves NaN as NaN;
- a `Frame` records which of the recognized columns are present
  (`pd.DataFrame` column presence) together with the list of rows; every
  column, the `Merchant Mix Index` column included, holds arbitrary cells;
- on a `Merchant Mix Index` column that is not entirely null and holds a
  non-numeric value, both copies of the code raise: the batch copy at
  `s.max() > 1.5` (risk_utils.py line 17, object-dtype reduction /
  string-float comparison), the serving copy at `astype(float)` (server.py
  line 17). Both `normalize_merchant_mix` copies and both `compute_flags`
  copies therefore return an `Option`, `none` standing for the propagated
  exception; the five `pd.to_numeric`-coerced columns never raise;
- `Cell.num` stands for a float-typed number. A string-typed but parseable
  numeric value is outside the model (the batch copy would raise on it in
  the merchant column while the serving copy would parse it).
The `target_positive` column of the batch path (risk_utils.py lines 96-100) is
derived from two DPD columns that no flag, score, tier or reasons value
reads; it is outside the properties treated here and is not modelled.
-/

namespace Risk

/-- A raw cell of a numeric input column, before `pd.to_numeric`. -/
inductive Cell where
  | num (q : ℚ)
  | nonnum
  | missing
  deriving DecidableEq, Repr

/-- Models `pd.to_numeric(_, errors="coerce")` on one cell: non-numeric and NaN
both coerce to NaN (`none`). -/
def toNumeric : Cell → Option ℚ
  | Cell.num q => some q
  | Cell.nonnum => none
  | Cell.missing => none

/-- Models `Series.fillna d` on one cell. -/
def fillna (d : ℚ) : Option ℚ → ℚ
  | none => d
  | some q => q

/-- Models `Series.clip(lower=0.0, upper=1.0)` on one non-NaN cell. -/
def clip01 (q : ℚ) : ℚ := max 0 (min 1 q)

/-- Models `Series.clip(lower=0.0, upper=1.0)` on one cell; NaN stays NaN. -/
def clip01opt : Option ℚ → Option ℚ := Option.map clip01

/-- Maximum of a list of rationals, `none` on the empty list. -/
def smax : List ℚ → Option ℚ
  | [] => none
  | x :: xs =>
    match smax xs with
    | none => some x
    | some m => some (max x m)

/-- Models `series.max() > c` in pandas: the max skips NaN, and if every value is
NaN the max is NaN, which compares `False` against `c`. -/
def maxGt (l : List (Option ℚ)) (c : ℚ) : Bool :=
  match smax (l.filterMap id) with
  | none => false
  | some m => decide (c < m)

/-- A pandas comparison `s <= c` where `s` may be NaN: NaN compares `False`. -/
def leNaN (o : Option ℚ) (c : ℚ) : Bool :=
  match o with
  | none => false
  | some q => decide (q ≤ c)

/-- Risk tier labels of `pd.cut(..., labels=["Low","Medium","High"])`. -/
inductive Tier where
  | Low | Medium | High
  deriving DecidableEq, Repr

/-- Models `pd.cut(score, bins=[-1,0,1,999], labels=["Low","Medium","High"])` on a
single value: intervals are left-exclusive, right-inclusive; values outside
`(-1, 999]` become NaN (`none`). -/
def cutTier (s : ℤ) : Option Tier :=
  if -1 < s ∧ s ≤ 0 then some Tier.Low
  else if 0 < s ∧ s ≤ 1 then some Tier.Medium
  else if 1 < s ∧ s ≤ 999 then some Tier.High
  else none

/-- One input row, restricted to the columns the flag engine reads. -/
structure Row where
  util : Cell          -- "Utilisation %"
  apr : Cell           -- "Avg Payment Ratio"
  minDue : Cell        -- "Min Due Paid Frequency"
  cashW : Cell         -- "Cash Withdrawal %"
  spendChg : Cell      -- "Recent Spend Change %"
  mm : Cell            -- "Merchant Mix Index"
  deriving DecidableEq, Repr

/-- An input table: which recognized columns are present, and the rows.
A cell of an absent column is never read by either engine. -/
structure Frame where
  hasUtil : Bool
  hasApr : Bool
  hasMinDue : Bool
  hasCashW : Bool
  hasSpendChg : Bool
  hasMM : Bool
  rows : List Row
  deriving DecidableEq, Repr

/-- The value a present column yields, or NaN when the column is absent
(risk_utils.py `safe_load_defaults`, server.py `df[c] = np.nan`). -/
def cellIf (b : Bool) (c : Cell) : Cell := if b then c else Cell.missing

/-- Models pandas `isnull` on one cell: only NaN is null (a non-numeric
string value is NOT null). -/
def cellIsNull : Cell → Bool
  | Cell.missing => true
  | _ => false

/-- Whether a cell holds a non-numeric value: such a cell raises under
`astype(float)` and under an object-dtype `max`-against-number comparison. -/
def cellIsNonnum : Cell → Bool
  | Cell.nonnum => true
  | _ => false

namespace RiskUtils

/-- risk_utils.py lines 11-20, `normalize_merchant_mix`: if the column is
entirely NaN return it unchanged (line 14-15; an all-NaN column is all
`none` after reading); otherwise `s.max() > 1.5` is evaluated (line 17),
which RAISES when the column holds any non-numeric value (object-dtype
reduction / string-float comparison) — modelled as `none`; otherwise
divide by 100 when the NaN-skipping max exceeds 1.5, then clip to [0,1]
(NaN cells stay NaN). -/
def normalize_merchant_mix (s : List Cell) : Option (List (Option ℚ)) :=
  if s.all cellIsNull then some (s.map toNumeric)
  else if s.any cellIsNonnum then none
  else
    let v := s.map toNumeric
    let s1 := if maxGt v 1.5 then v.map (Option.map (fun q => q / 100)) else v
    some (s1.map clip01opt)

/-- Effective "Utilisation %" cell after `safe_load_defaults` (lines 28-30). -/
def utilCell (f : Frame) (r : Row) : Cell := cellIf f.hasUtil r.util

/-- Effective "Avg Payment Ratio" cell after `safe_load_defaults`. -/
def aprCell (f : Frame) (r : Row) : Cell := cellIf f.hasApr r.apr

/-- Effective "Min Due Paid Frequency" cell after `safe_load_defaults`. -/
def minDueCell (f : Frame) (r : Row) : Cell := cellIf f.hasMinDue r.minDue

/-- Effective "Cash Withdrawal %" cell after `safe_load_defaults`. -/
def cashCell (f : Frame) (r : Row) : Cell := cellIf f.hasCashW r.cashW

/-- Effective "Recent Spend Change %" cell after `safe_load_defaults`. -/
def spendCell (f : Frame) (r : Row) : Cell := cellIf f.hasSpendChg r.spendChg

/-- Effective "Merchant Mix Index" cell after `safe_load_defaults`. -/
def mmCell (f : Frame) (r : Row) : Cell := cellIf f.hasMM r.mm

/-- Line 52, `pd.to_numeric(df[c], errors="coerce").fillna(0.0)`. -/
def utilVal (f : Frame) (r : Row) : ℚ := fillna 0 (toNumeric (utilCell f r))

/-- Line 52 for "Avg Payment Ratio" (value before the scale/clip step). -/
def aprVal0 (f : Frame) (r : Row) : ℚ := fillna 0 (toNumeric (aprCell f r))

/-- Line 52 for "Min Due Paid Frequency". -/
def minDueVal (f : Frame) (r : Row) : ℚ := fillna 0 (toNumeric (minDueCell f r))

/-- Line 52 for "Cash Withdrawal %". -/
def cashVal (f : Frame) (r : Row) : ℚ := fillna 0 (toNumeric (cashCell f r))

/-- Line 52 for "Recent Spend Change %". -/
def spendVal (f : Frame) (r : Row) : ℚ := fillna 0 (toNumeric (spendCell f r))

/-- Line 55, `df["Avg Payment Ratio"].max() > 1.5` (the column has no NaN
at this point, every cell was filled on line 52). -/
def aprRescale (f : Frame) : Bool :=
  maxGt (f.rows.map (fun r => some (aprVal0 f r))) 1.5

/-- Lines 55-57: scale the whole "Avg Payment Ratio" column by 1/100 when
its max exceeds 1.5, then clip to [0,1]; this overwrites the column. -/
def aprVal (f : Frame) (r : Row) : ℚ :=
  clip01 (if aprRescale f then aprVal0 f r / 100 else aprVal0 f r)

/-- Lines 60-63: `(Utilisation % >= 80) & (Recent Spend Change % >= 20)`,
as int 0/1. -/
def flagUtilSpike (f : Frame) (r : Row) : ℕ :=
  if 80 ≤ utilVal f r ∧ 20 ≤ spendVal f r then 1 else 0

/-- Line 65: `Min Due Paid Frequency >= 2`, as int 0/1. -/
def flagMinDueStreak (f : Frame) (r : Row) : ℕ :=
  if 2 ≤ minDueVal f r then 1 else 0

/-- Line 67: `Avg Payment Ratio <= 0.4` on the overwritten column. -/
def flagLowPayRatio (f : Frame) (r : Row) : ℕ :=
  if aprVal f r ≤ 0.4 then 1 else 0

/-- Lines 69-72: `(Cash Withdrawal % > 0) & (Utilisation % > 70)`. -/
def flagCashAdvance (f : Frame) (r : Row) : ℕ :=
  if 0 < cashVal f r ∧ 70 < utilVal f r then 1 else 0

/-- Line 74: `MerchantMix_norm <= 0.35`; a NaN norm compares `False`. -/
def flagMerchantShift (mmN : Option ℚ) : ℕ :=
  if leNaN mmN 0.35 then 1 else 0

/-- Line 81: `risk_score` is the row sum of the five flag columns. -/
def riskScore (f : Frame) (mmN : Option ℚ) (r : Row) : ℕ :=
  flagUtilSpike f r + flagMinDueStreak f r + flagLowPayRatio f r +
    flagCashAdvance f r + flagMerchantShift mmN

/-- One output row of the batch engine: the five numeric columns as
overwritten in place, the untouched merchant column, and the derived
columns added by `compute_flags`. -/
structure ScoredRow where
  util : ℚ             -- "Utilisation %" after coerce+fillna(0)
  apr : ℚ              -- "Avg Payment Ratio" after coerce+fillna+scale+clip
  minDue : ℚ           -- "Min Due Paid Frequency" after coerce+fillna(0)
  cashW : ℚ            -- "Cash Withdrawal %" after coerce+fillna(0)
  spendChg : ℚ         -- "Recent Spend Change %" after coerce+fillna(0)
  mm : Cell            -- "Merchant Mix Index", unchanged
  mmNorm : Option ℚ    -- "MerchantMix_norm" (line 44)
  flag_util_spike : ℕ
  flag_min_due_streak : ℕ
  flag_low_pay_ratio : ℕ
  flag_cash_advance : ℕ
  flag_merchant_shift : ℕ
  risk_score : ℕ
  risk_tier : Option Tier
  reasons : String
  deriving DecidableEq, Repr

/-- risk_utils.py lines 85-92, `reasons_for_row`: labels of the truthy
(non-zero) flags in declaration order, joined with ", ", else "None". -/
def reasons_for_row (f1 f2 f3 f4 f5 : ℕ) : String :=
  let l : List String :=
    (if f1 ≠ 0 then ["Util Spike"] else []) ++
    (if f2 ≠ 0 then ["Min Due Streak"] else []) ++
    (if f3 ≠ 0 then ["Low Payment Ratio"] else []) ++
    (if f4 ≠ 0 then ["Cash Advance"] else []) ++
    (if f5 ≠ 0 then ["Merchant Mix Shift"] else [])
  if l.isEmpty then "None" else String.intercalate ", " l

/-- Lines 60-94 applied to one row, given the already-normalized
merchant value of the row `mmN` (the column-level normalization is applied by
`compute_flags` below). Flags follow lines 60-74, the score line 81, the
tier line 82, the reasons lines 85-94. -/
def scoreRow (f : Frame) (mmN : Option ℚ) (r : Row) : ScoredRow :=
  { util := utilVal f r, apr := aprVal f r, minDue := minDueVal f r,
    cashW := cashVal f r, spendChg := spendVal f r,
    mm := mmCell f r, mmNorm := mmN,
    flag_util_spike := flagUtilSpike f r,
    flag_min_due_streak := flagMinDueStreak f r,
    flag_low_pay_ratio := flagLowPayRatio f r,
    flag_cash_advance := flagCashAdvance f r,
    flag_merchant_shift := flagMerchantShift mmN,
    risk_score := riskScore f mmN r,
    risk_tier := cutTier (riskScore f mmN r : ℕ),
    reasons := reasons_for_row (flagUtilSpike f r) (flagMinDueStreak f r)
      (flagLowPayRatio f r) (flagCashAdvance f r) (flagMerchantShift mmN) }

/-- risk_utils.py lines 33-102, `compute_flags` (minus `target_positive`,
see the file header): normalize the merchant column as a whole (line 44) —
an exception raised there propagates out of `compute_flags` (`none`) —
then derive every per-row output. -/
def compute_flags (f : Frame) : Option (List ScoredRow) :=
  (normalize_merchant_mix (f.rows.map (mmCell f))).map
    (fun ns => List.zipWith (scoreRow f) ns f.rows)

end RiskUtils

namespace Server

/-- server.py lines 117-123, `normalize_merchant_mix`: same algorithm and
same error behaviour as the batch copy — the entirely-null check (line 118)
returns the column unchanged, otherwise `astype(float)` (line 120) RAISES
on any non-numeric value (modelled as `none`); `max(skipna=True)` is the
NaN-skipping max. -/
def normalize_merchant_mix (s : List Cell) : Option (List (Option ℚ)) :=
  if s.all cellIsNull then some (s.map toNumeric)
  else if s.any cellIsNonnum then none
  else
    let v := s.map toNumeric
    let s1 := if maxGt v 1.5 then v.map (Option.map (fun q => q / 100)) else v
    some (s1.map clip01opt)

/-- Lines 136-139: absent numeric columns are created as NaN, then
`pd.to_numeric(..., errors="coerce")` without fillna. -/
def utilV (f : Frame) (r : Row) : Option ℚ := toNumeric (cellIf f.hasUtil r.util)

/-- Lines 136-139 for "Avg Payment Ratio" (value before scale/clip/fill). -/
def aprV0 (f : Frame) (r : Row) : Option ℚ := toNumeric (cellIf f.hasApr r.apr)

/-- Lines 136-139 for "Min Due Paid Frequency". -/
def minDueV (f : Frame) (r : Row) : Option ℚ := toNumeric (cellIf f.hasMinDue r.minDue)

/-- Lines 136-139 for "Cash Withdrawal %". -/
def cashV (f : Frame) (r : Row) : Option ℚ := toNumeric (cellIf f.hasCashW r.cashW)

/-- Lines 136-139 for "Recent Spend Change %". -/
def spendV (f : Frame) (r : Row) : Option ℚ := toNumeric (cellIf f.hasSpendChg r.spendChg)

/-- Lines 142-145: the "MerchantMix_norm" column is the normalized merchant
column when "Merchant Mix Index" is present (an exception from the
normalization propagates), else an all-NaN column. -/
def mmNormCol (f : Frame) : Option (List (Option ℚ)) :=
  if f.hasMM then normalize_merchant_mix (f.rows.map Row.mm)
  else some (f.rows.map (fun _ => none))

/-- Line 148, `df["Avg Payment Ratio"].max(skipna=True) > 1.5`. -/
def aprRescale (f : Frame) : Bool := maxGt (f.rows.map (aprV0 f)) 1.5

/-- Lines 148-150: optional /100 scaling, then `.clip(0, 1).fillna(0)`,
stored back into the "Avg Payment Ratio" column (which therefore holds no
NaN afterwards). -/
def aprStored (f : Frame) (r : Row) : Option ℚ :=
  some (fillna 0 (clip01opt (if aprRescale f then (aprV0 f r).map (fun q => q / 100) else aprV0 f r)))

/-- Lines 153-156: `(Utilisation %.fillna(0) >= 80) & (Recent Spend Change
%.fillna(0) >= 20)`, as int 0/1. -/
def flagUtilSpike (f : Frame) (r : Row) : ℕ :=
  if 80 ≤ fillna 0 (utilV f r) ∧ 20 ≤ fillna 0 (spendV f r) then 1 else 0

/-- Line 158: `Min Due Paid Frequency.fillna(0) >= 2`. -/
def flagMinDueStreak (f : Frame) (r : Row) : ℕ :=
  if 2 ≤ fillna 0 (minDueV f r) then 1 else 0

/-- Line 160: `Avg Payment Ratio.fillna(1) <= 0.4`, on the column stored by
line 150 (which already replaced every NaN by 0). -/
def flagLowPayRatio (f : Frame) (r : Row) : ℕ :=
  if fillna 1 (aprStored f r) ≤ 0.4 then 1 else 0

/-- Lines 162-165: `(Cash Withdrawal %.fillna(0) > 0) & (Utilisation
%.fillna(0) > 70)`. -/
def flagCashAdvance (f : Frame) (r : Row) : ℕ :=
  if 0 < fillna 0 (cashV f r) ∧ 70 < fillna 0 (utilV f r) then 1 else 0

/-- Line 167: `MerchantMix_norm.fillna(1) <= 0.35`. -/
def flagMerchantShift (mmN : Option ℚ) : ℕ :=
  if fillna 1 mmN ≤ 0.35 then 1 else 0

/-- Line 174: the row sum of the five flag columns. -/
def riskScore (f : Frame) (mmN : Option ℚ) (r : Row) : ℕ :=
  flagUtilSpike f r + flagMinDueStreak f r + flagLowPayRatio f r +
    flagCashAdvance f r + flagMerchantShift mmN

/-- One output row of the serving engine: the numeric columns as stored
after coercion (NaN kept, except "Avg Payment Ratio" which was filled), the
untouched merchant column, and the derived columns. -/
structure ScoredRow where
  util : Option ℚ      -- "Utilisation %" after coercion (NaN kept)
  apr : Option ℚ       -- "Avg Payment Ratio" after scale+clip+fillna(0)
  minDue : Option ℚ    -- "Min Due Paid Frequency" after coercion
  cashW : Option ℚ     -- "Cash Withdrawal %" after coercion
  spendChg : Option ℚ  -- "Recent Spend Change %" after coercion
  mm : Cell            -- "Merchant Mix Index" (meaningful only when present)
  mmNorm : Option ℚ    -- "MerchantMix_norm"
  flag_util_spike : ℕ
  flag_min_due_streak : ℕ
  flag_low_pay_ratio : ℕ
  flag_cash_advance : ℕ
  flag_merchant_shift : ℕ
  risk_score : ℕ
  risk_tier : Option Tier
  reasons : String
  deriving DecidableEq, Repr

/-- server.py lines 178-185, `get_reasons` (textually identical to the
batch `reasons_for_row`). -/
def get_reasons (f1 f2 f3 f4 f5 : ℕ) : String :=
  let l : List String :=
    (if f1 ≠ 0 then ["Util Spike"] else []) ++
    (if f2 ≠ 0 then ["Min Due Streak"] else []) ++
    (if f3 ≠ 0 then ["Low Payment Ratio"] else []) ++
    (if f4 ≠ 0 then ["Cash Advance"] else []) ++
    (if f5 ≠ 0 then ["Merchant Mix Shift"] else [])
  if l.isEmpty then "None" else String.intercalate ", " l

/-- server.py lines 153-187 applied to one row, given the
"MerchantMix_norm" value of the row `mmN`. Flags follow lines 153-167 (each comparison
fills its NaN operand first), the score line 174, the tier line 175, the
reasons lines 178-187. -/
def scoreRow (f : Frame) (mmN : Option ℚ) (r : Row) : ScoredRow :=
  { util := utilV f r, apr := aprStored f r, minDue := minDueV f r,
    cashW := cashV f r, spendChg := spendV f r, mm := r.mm, mmNorm := mmN,
    flag_util_spike := flagUtilSpike f r,
    flag_min_due_streak := flagMinDueStreak f r,
    flag_low_pay_ratio := flagLowPayRatio f r,
    flag_cash_advance := flagCashAdvance f r,
    flag_merchant_shift := flagMerchantShift mmN,
    risk_score := riskScore f mmN r,
    risk_tier := cutTier (riskScore f mmN r : ℕ),
    reasons := get_reasons (flagUtilSpike f r) (flagMinDueStreak f r)
      (flagLowPayRatio f r) (flagCashAdvance f r) (flagMerchantShift mmN) }

/-- server.py lines 128-189, `compute_flags`: an exception raised while
normalizing the merchant column propagates out (`none`). -/
def compute_flags (f : Frame) : Option (List ScoredRow) :=
  (mmNormCol f).map (fun ns => List.zipWith (scoreRow f) ns f.rows)

end Server

/-! ### Specification-side definitions

Definitions below are not translated from the source; they state, in the
own terms of the spec, what the claims assert, so that theorems can compare the
source functions against them. -/

/-- The merchant-mix normalization exactly as the spec words it: "if the
column is entirely missing, pass through unchanged; else, if the maximum
observed value exceeds 1.5, divide the whole column by 100; then clip to
[0,1]". -/
def specNormalizeMerchantMix (s : List (Option ℚ)) : List (Option ℚ) :=
  if s.all Option.isNone then s
  else if maxGt s 1.5 then (s.map (Option.map (fun q => q / 100))).map clip01opt
  else s.map clip01opt

/-- The action of the merchant-mix normalization on one cell in the
non-raising cases, given the two column-global decisions (entirely-missing
pass-through, and max > 1.5 rescale). Used to state the pointwise
behaviour of the column-level `normalize_merchant_mix` when it succeeds. -/
def normCell (allN scaleB : Bool) (x : Cell) : Option ℚ :=
  if allN then toNumeric x
  else clip01opt (if scaleB then (toNumeric x).map (fun q => q / 100) else toNumeric x)

/-- Number of "true" flags: flags are 0/1 ints, truthy means non-zero. -/
def trueFlagCount (l : List ℕ) : ℕ := l.countP (fun n => decide (n ≠ 0))

/-- Whether a possibly-NaN value is a number in the closed interval [0,1]. -/
def optInUnit (o : Option ℚ) : Bool :=
  match o with
  | none => false
  | some q => decide (0 ≤ q ∧ q ≤ 1)

/-- The labels of exactly the truthy flags, in flag-declaration order
(spec: Util Spike, Min Due Streak, Low Payment Ratio, Cash Advance,
Merchant Mix Shift). -/
def trueLabels (f1 f2 f3 f4 f5 : ℕ) : List String :=
  (if f1 ≠ 0 then ["Util Spike"] else []) ++
  (if f2 ≠ 0 then ["Min Due Streak"] else []) ++
  (if f3 ≠ 0 then ["Low Payment Ratio"] else []) ++
  (if f4 ≠ 0 then ["Cash Advance"] else []) ++
  (if f5 ≠ 0 then ["Merchant Mix Shift"] else [])

/-- The five flag values of a batch output row, as one tuple. -/
def flagsRU (sr : RiskUtils.ScoredRow) : ℕ × ℕ × ℕ × ℕ × ℕ :=
  (sr.flag_util_spike, sr.flag_min_due_streak, sr.flag_low_pay_ratio,
   sr.flag_cash_advance, sr.flag_merchant_shift)

/-- The five flag values of a serving output row, as one tuple. -/
def flagsSV (sr : Server.ScoredRow) : ℕ × ℕ × ℕ × ℕ × ℕ :=
  (sr.flag_util_spike, sr.flag_min_due_streak, sr.flag_low_pay_ratio,
   sr.flag_cash_advance, sr.flag_merchant_shift)

/-- A batch output row read back as an input row, i.e. the output
table of the engine with the derived columns (flags, score, tier, reasons,
MerchantMix_norm) dropped: the five numeric columns hold the overwritten
values, "Merchant Mix Index" is untouched. -/
def stripRU (sr : RiskUtils.ScoredRow) : Row :=
  ⟨Cell.num sr.util, Cell.num sr.apr, Cell.num sr.minDue, Cell.num sr.cashW,
   Cell.num sr.spendChg, sr.mm⟩

/-- The batch output table fed back to the batch engine. All recognized
columns exist in the output (`safe_load_defaults` created any absent one). -/
def rerunRU (out : List RiskUtils.ScoredRow) : Frame :=
  ⟨true, true, true, true, true, true, out.map stripRU⟩

/-- A post-coercion cell written back as a raw cell (NaN stays NaN). -/
def optCell : Option ℚ → Cell
  | none => Cell.missing
  | some q => Cell.num q

/-- A serving output row read back as an input row, derived columns
dropped. -/
def stripSV (sr : Server.ScoredRow) : Row :=
  ⟨optCell sr.util, optCell sr.apr, optCell sr.minDue, optCell sr.cashW,
   optCell sr.spendChg, sr.mm⟩

/-- The serving output table fed back to the serving engine: the five
numeric columns were created if absent (lines 137-138), the merchant column
exists in the output only if the input had it. -/
def rerunSV (f : Frame) (out : List Server.ScoredRow) : Frame :=
  ⟨true, true, true, true, true, f.hasMM, out.map stripSV⟩

/-! ### Concrete instances used by counterexamples and witnesses -/

/-- A row with Utilisation 85, Recent Spend Change 25, merchant mix 0.9,
payment ratio 0.9, everything else 0 (spec §8, first example, with a
payment ratio that does not trip the low-pay flag). -/
def rowA : Row :=
  ⟨Cell.num 85, Cell.num 0.9, Cell.num 0, Cell.num 0, Cell.num 25, Cell.num 0.9⟩

/-- A one-row table with every recognized column present. -/
def frameA : Frame := ⟨true, true, true, true, true, true, [rowA]⟩

/-- A row whose "Avg Payment Ratio" is missing (NaN). -/
def rowMissingApr : Row :=
  ⟨Cell.num 0, Cell.missing, Cell.num 0, Cell.num 0, Cell.num 0, Cell.num 0.9⟩

/-- A one-row table, all columns present, payment ratio missing. -/
def frameMissingApr : Frame := ⟨true, true, true, true, true, true, [rowMissingApr]⟩

/-- A one-row table whose "Merchant Mix Index" column is absent. -/
def frameNoMM : Frame := ⟨true, true, true, true, true, false, [rowA]⟩

/-- A row with "Avg Payment Ratio" 50, i.e. on the 0-100 scale. -/
def rowApr50 : Row :=
  ⟨Cell.num 10, Cell.num 50, Cell.num 0, Cell.num 0, Cell.num 0, Cell.num 0.9⟩

/-- A one-row table carrying `rowApr50`. -/
def frameApr50 : Frame := ⟨true, true, true, true, true, true, [rowApr50]⟩

/-- A row with merchant mix 0.9 on the 0-1 scale, payment ratio 1. -/
def rowMM09 : Row :=
  ⟨Cell.num 0, Cell.num 1, Cell.num 0, Cell.num 0, Cell.num 0, Cell.num 0.9⟩

/-- A row with merchant mix 90 on the 0-100 scale, payment ratio 1. -/
def rowMM90 : Row :=
  ⟨Cell.num 0, Cell.num 1, Cell.num 0, Cell.num 0, Cell.num 0, Cell.num 90⟩

/-- A one-row table: merchant mix 0.9 only. -/
def frameMM1 : Frame := ⟨true, true, true, true, true, true, [rowMM09]⟩

/-- The table `frameMM1` with one record appended whose merchant mix is 90. -/
def frameMM2 : Frame := ⟨true, true, true, true, true, true, [rowMM09, rowMM90]⟩

lemma smax_eq_none {l : List ℚ} (h : smax l = none) : l = [] := by
  cases l with
  | nil => rfl
  | cons x xs =>
    unfold smax at h
    rcases h2 : smax xs with _ | m <;> rw [h2] at h <;> simp at h

lemma smax_le_iff : ∀ {l : List ℚ} {m : ℚ}, smax l = some m →
    ∀ c : ℚ, m ≤ c ↔ ∀ x ∈ l, x ≤ c := by
  intro l
  induction l with
  | nil => intro m h; simp [smax] at h
  | cons x xs ih =>
    intro m h c
    rcases hx : smax xs with _ | m2
    · have hnil := smax_eq_none hx
      subst hnil
      unfold smax at h
      simp only [smax] at h
      obtain rfl : x = m := by simpa using h
      simp
    · unfold smax at h
      rw [hx] at h
      obtain rfl : max x m2 = m := by simpa using h
      constructor
      · intro hm y hy
        rcases List.mem_cons.mp hy with rfl | hy
        · exact le_trans (le_max_left _ _) hm
        · exact ((ih hx c).mp (le_trans (le_max_right _ _) hm)) y hy
      · intro hall
        exact max_le (hall x (List.mem_cons_self _ _))
          ((ih hx c).mpr (fun y hy => hall y (List.mem_cons_of_mem _ hy)))

lemma some_mem_iff_mem_filterMap {l : List (Option ℚ)} {q : ℚ} :
    some q ∈ l ↔ q ∈ l.filterMap id := by
  rw [List.mem_filterMap]
  constructor
  · intro h; exact ⟨some q, h, rfl⟩
  · rintro ⟨o, ho, rfl2⟩
    cases o with
    | none => simp at rfl2
    | some p => obtain rfl : p = q := by simpa using rfl2
                exact ho

lemma maxGt_eq_false_iff {l : List (Option ℚ)} {c : ℚ} :
    maxGt l c = false ↔ ∀ q : ℚ, some q ∈ l → q ≤ c := by
  unfold maxGt
  rcases h : smax (l.filterMap id) with _ | m
  · have hnil := smax_eq_none h
    simp only [true_iff]
    intro q hq
    rw [some_mem_iff_mem_filterMap, hnil] at hq
    simp at hq
  · simp only [decide_eq_false_iff_not, not_lt]
    rw [smax_le_iff h c]
    constructor
    · intro hall q hq
      exact hall q (some_mem_iff_mem_filterMap.mp hq)
    · intro hall x hx
      exact hall x (some_mem_iff_mem_filterMap.mpr hx)

lemma clip01_nonneg (q : ℚ) : 0 ≤ clip01 q := le_max_left 0 _

lemma clip01_le_one (q : ℚ) : clip01 q ≤ 1 :=
  max_le (by norm_num) (min_le_left 1 q)

lemma clip01_of_unit {q : ℚ} (h0 : 0 ≤ q) (h1 : q ≤ 1) : clip01 q = q := by
  unfold clip01
  rw [min_eq_right h1, max_eq_right h0]

lemma exists_of_mem_zipWith {α β γ : Type} {g : α → β → γ} {z : γ} :
    ∀ {as : List α} {bs : List β}, z ∈ List.zipWith g as bs →
      ∃ a b, a ∈ as ∧ b ∈ bs ∧ z = g a b := by
  intro as
  induction as with
  | nil => intro bs h; simp at h
  | cons a as ih =>
    intro bs h
    cases bs with
    | nil => simp at h
    | cons b bs =>
      rw [List.zipWith_cons_cons, List.mem_cons] at h
      rcases h with h | h
      · exact ⟨a, b, List.mem_cons_self _ _, List.mem_cons_self _ _, h⟩
      · obtain ⟨a2, b2, ha, hb, hz⟩ := ih h
        exact ⟨a2, b2, List.mem_cons_of_mem _ ha, List.mem_cons_of_mem _ hb, hz⟩

lemma cutTier_cases {n : ℕ} (h : n ≤ 5) :
    (cutTier n = some Tier.Low ↔ n = 0) ∧
      (cutTier n = some Tier.Medium ↔ n = 1) ∧
      (cutTier n = some Tier.High ↔ 2 ≤ n) := by
  interval_cases n <;> simp [cutTier]

lemma sum_flags_eq_count {a b c d e : ℕ} (ha : a ≤ 1) (hb : b ≤ 1)
    (hc : c ≤ 1) (hd : d ≤ 1) (he : e ≤ 1) :
    a + b + c + d + e = trueFlagCount [a, b, c, d, e] := by
  interval_cases a <;> interval_cases b <;> interval_cases c <;>
    interval_cases d <;> interval_cases e <;> rfl

lemma trueLabels_nil_iff {a b c d e : ℕ} :
    trueLabels a b c d e = [] ↔ a + b + c + d + e = 0 := by
  unfold trueLabels
  simp only [List.append_eq_nil, ite_eq_right_iff, List.cons_ne_nil, imp_false,
    Decidable.not_not]
  omega

/-! ### Lemmas on the batch engine -/

lemma cellIsNull_toNumeric {c : Cell} (h : cellIsNull c = true) :
    toNumeric c = none := by
  cases c <;> simp [cellIsNull, toNumeric] at h ⊢

lemma allNull_toNumeric_isNone {s : List Cell} (h : s.any cellIsNonnum = false) :
    s.all cellIsNull = (s.map toNumeric).all Option.isNone := by
  induction s with
  | nil => rfl
  | cons c cs ih =>
    rw [List.any_cons] at h
    have h1 : cellIsNonnum c = false := by
      cases hx : cellIsNonnum c
      · rfl
      · rw [hx] at h; simp at h
    have h2 : cs.any cellIsNonnum = false := by
      cases hx : cs.any cellIsNonnum
      · rfl
      · rw [hx] at h; simp at h
    rw [List.map_cons, List.all_cons, List.all_cons, ih h2]
    congr 1
    cases c <;> simp [cellIsNull, toNumeric, cellIsNonnum] at h1 ⊢

lemma normalizeRU_length {s : List Cell} {ns : List (Option ℚ)}
    (h : RiskUtils.normalize_merchant_mix s = some ns) : ns.length = s.length := by
  unfold RiskUtils.normalize_merchant_mix at h
  split at h
  · obtain rfl := Option.some.inj h
    simp
  · split at h
    · simp at h
    · obtain rfl := Option.some.inj h
      simp only [List.length_map]
      split <;> simp

lemma normalizeRU_getElem {s : List Cell} {ns : List (Option ℚ)}
    (h : RiskUtils.normalize_merchant_mix s = some ns) (i : ℕ) :
    ns[i]? = (s[i]?).map
      (normCell (s.all cellIsNull) (maxGt (s.map toNumeric) 1.5)) := by
  unfold RiskUtils.normalize_merchant_mix at h
  unfold normCell
  split at h
  · rename_i hall
    obtain rfl := Option.some.inj h
    simp [hall]
  · split at h
    · simp at h
    · rename_i hall hnn
      obtain rfl := Option.some.inj h
      have hallf : s.all cellIsNull = false := by
        cases hx : s.all cellIsNull
        · rfl
        · exact absurd hx hall
      simp only [hallf, Bool.false_eq_true, if_false]
      rcases hm : maxGt (s.map toNumeric) 1.5 with _ | _
      · simp only [Bool.false_eq_true, if_false, List.getElem?_map, Option.map_map]
        rcases s[i]? with _ | c <;> rfl
      · simp only [if_true, List.getElem?_map, Option.map_map]
        rcases s[i]? with _ | c <;> rfl

lemma normalizeRU_mem_cases {s : List Cell} {ns : List (Option ℚ)} {v : Option ℚ}
    (hs : RiskUtils.normalize_merchant_mix s = some ns) (h : v ∈ ns) :
    v = none ∨ ∃ q, v = some q ∧ 0 ≤ q ∧ q ≤ 1 := by
  unfold RiskUtils.normalize_merchant_mix at hs
  split at hs
  · rename_i hall
    obtain rfl := Option.some.inj hs
    rw [List.mem_map] at h
    obtain ⟨c, hc, rfl⟩ := h
    left
    exact cellIsNull_toNumeric (List.all_eq_true.mp hall c hc)
  · split at hs
    · simp at hs
    · obtain rfl := Option.some.inj hs
      rw [List.mem_map] at h
      obtain ⟨x, _, rfl⟩ := h
      cases x with
      | none => left; rfl
      | some q =>
        right
        exact ⟨clip01 q, rfl, clip01_nonneg q, clip01_le_one q⟩

lemma normalizeRU_eq_spec {s : List Cell} (h : s.any cellIsNonnum = false) :
    RiskUtils.normalize_merchant_mix s =
      some (specNormalizeMerchantMix (s.map toNumeric)) := by
  have hcond := allNull_toNumeric_isNone h
  unfold RiskUtils.normalize_merchant_mix specNormalizeMerchantMix
  rcases hall : s.all cellIsNull with _ | _
  · rw [hall] at hcond
    rw [if_neg (by simp), if_neg (by simp [h]), if_neg (by rw [← hcond]; simp)]
    rcases hm : maxGt (s.map toNumeric) 1.5 with _ | _ <;>
      simp only [hm, Bool.false_eq_true, if_false, if_true]
  · rw [hall] at hcond
    rw [if_pos rfl, if_pos (by rw [← hcond])]

lemma flagsRU_le_one (f : Frame) (mmN : Option ℚ) (r : Row) :
    RiskUtils.flagUtilSpike f r ≤ 1 ∧ RiskUtils.flagMinDueStreak f r ≤ 1 ∧
      RiskUtils.flagLowPayRatio f r ≤ 1 ∧ RiskUtils.flagCashAdvance f r ≤ 1 ∧
      RiskUtils.flagMerchantShift mmN ≤ 1 := by
  unfold RiskUtils.flagUtilSpike RiskUtils.flagMinDueStreak
    RiskUtils.flagLowPayRatio RiskUtils.flagCashAdvance
    RiskUtils.flagMerchantShift
  split_ifs <;> omega

lemma riskScoreRU_le_five (f : Frame) (mmN : Option ℚ) (r : Row) :
    RiskUtils.riskScore f mmN r ≤ 5 := by
  obtain ⟨h1, h2, h3, h4, h5⟩ := flagsRU_le_one f mmN r
  unfold RiskUtils.riskScore
  omega

lemma mem_computeRU {f : Frame} {out : List RiskUtils.ScoredRow}
    {sr : RiskUtils.ScoredRow} (hf : RiskUtils.compute_flags f = some out)
    (h : sr ∈ out) :
    ∃ ns mmN r,
      RiskUtils.normalize_merchant_mix (f.rows.map (RiskUtils.mmCell f)) = some ns ∧
        mmN ∈ ns ∧ r ∈ f.rows ∧ sr = RiskUtils.scoreRow f mmN r := by
  unfold RiskUtils.compute_flags at hf
  rcases hns : RiskUtils.normalize_merchant_mix (f.rows.map (RiskUtils.mmCell f))
    with _ | ns
  · rw [hns] at hf
    simp at hf
  · rw [hns] at hf
    obtain rfl : List.zipWith (RiskUtils.scoreRow f) ns f.rows = out := by
      simpa using hf
    obtain ⟨a, b, ha, hb, hz⟩ := exists_of_mem_zipWith h
    exact ⟨ns, a, b, rfl, ha, hb, hz⟩

lemma computeRU_getElem {f : Frame} {out : List RiskUtils.ScoredRow}
    (hf : RiskUtils.compute_flags f = some out) (i : ℕ) :
    out[i]? = (f.rows[i]?).map (fun r =>
      RiskUtils.scoreRow f
        (normCell ((f.rows.map (RiskUtils.mmCell f)).all cellIsNull)
          (maxGt ((f.rows.map (RiskUtils.mmCell f)).map toNumeric) 1.5)
          (RiskUtils.mmCell f r)) r) := by
  unfold RiskUtils.compute_flags at hf
  rcases hns : RiskUtils.normalize_merchant_mix (f.rows.map (RiskUtils.mmCell f))
    with _ | ns
  · rw [hns] at hf
    simp at hf
  · rw [hns] at hf
    obtain rfl : List.zipWith (RiskUtils.scoreRow f) ns f.rows = out := by
      simpa using hf
    rw [List.getElem?_zipWith', normalizeRU_getElem hns, List.getElem?_map]
    rcases f.rows[i]? with _ | r <;> rfl

lemma getElem_computeRU {f : Frame} {out : List RiskUtils.ScoredRow} {i : ℕ}
    {r : Row} {sr : RiskUtils.ScoredRow} (hf : RiskUtils.compute_flags f = some out)
    (hr : f.rows[i]? = some r) (hs : out[i]? = some sr) :
    ∃ mmN, sr = RiskUtils.scoreRow f mmN r := by
  rw [computeRU_getElem hf i, hr] at hs
  exact ⟨_, by simpa using hs.symm⟩

lemma computeRU_length {f : Frame} {out : List RiskUtils.ScoredRow}
    (hf : RiskUtils.compute_flags f = some out) : out.length = f.rows.length := by
  unfold RiskUtils.compute_flags at hf
  rcases hns : RiskUtils.normalize_merchant_mix (f.rows.map (RiskUtils.mmCell f))
    with _ | ns
  · rw [hns] at hf
    simp at hf
  · rw [hns] at hf
    obtain rfl : List.zipWith (RiskUtils.scoreRow f) ns f.rows = out := by
      simpa using hf
    rw [List.length_zipWith, normalizeRU_length hns]
    simp

/-! ### Lemmas on the serving engine -/

lemma normalize_copies_eq (s : List Cell) :
    Server.normalize_merchant_mix s = RiskUtils.normalize_merchant_mix s := rfl

lemma flagsSV_le_one (f : Frame) (mmN : Option ℚ) (r : Row) :
    Server.flagUtilSpike f r ≤ 1 ∧ Server.flagMinDueStreak f r ≤ 1 ∧
      Server.flagLowPayRatio f r ≤ 1 ∧ Server.flagCashAdvance f r ≤ 1 ∧
      Server.flagMerchantShift mmN ≤ 1 := by
  unfold Server.flagUtilSpike Server.flagMinDueStreak Server.flagLowPayRatio
    Server.flagCashAdvance Server.flagMerchantShift
  split_ifs <;> omega

lemma riskScoreSV_le_five (f : Frame) (mmN : Option ℚ) (r : Row) :
    Server.riskScore f mmN r ≤ 5 := by
  obtain ⟨h1, h2, h3, h4, h5⟩ := flagsSV_le_one f mmN r
  unfold Server.riskScore
  omega

lemma mem_computeSV {f : Frame} {out : List Server.ScoredRow}
    {sr : Server.ScoredRow} (hf : Server.compute_flags f = some out)
    (h : sr ∈ out) :
    ∃ ns mmN r, Server.mmNormCol f = some ns ∧ mmN ∈ ns ∧ r ∈ f.rows ∧
      sr = Server.scoreRow f mmN r := by
  unfold Server.compute_flags at hf
  rcases hns : Server.mmNormCol f with _ | ns
  · rw [hns] at hf
    simp at hf
  · rw [hns] at hf
    obtain rfl : List.zipWith (Server.scoreRow f) ns f.rows = out := by
      simpa using hf
    obtain ⟨a, b, ha, hb, hz⟩ := exists_of_mem_zipWith h
    exact ⟨ns, a, b, rfl, ha, hb, hz⟩

lemma mmNormCol_mem_cases {f : Frame} {ns : List (Option ℚ)} {v : Option ℚ}
    (hns : Server.mmNormCol f = some ns) (h : v ∈ ns) :
    v = none ∨ ∃ q, v = some q ∧ 0 ≤ q ∧ q ≤ 1 := by
  unfold Server.mmNormCol at hns
  split at hns
  · rw [normalize_copies_eq] at hns
    exact normalizeRU_mem_cases hns h
  · obtain rfl := Option.some.inj hns
    rw [List.mem_map] at h
    obtain ⟨a, _, hv⟩ := h
    exact Or.inl hv.symm

lemma mmNormCol_length {f : Frame} {ns : List (Option ℚ)}
    (hns : Server.mmNormCol f = some ns) : ns.length = f.rows.length := by
  unfold Server.mmNormCol at hns
  split at hns
  · rw [normalize_copies_eq] at hns
    rw [normalizeRU_length hns]
    simp
  · obtain rfl := Option.some.inj hns
    simp

lemma mmNormCol_getElem {f : Frame} {ns : List (Option ℚ)}
    (hns : Server.mmNormCol f = some ns) (i : ℕ) :
    ns[i]? = (f.rows[i]?).map (fun r =>
      if f.hasMM then
        normCell ((f.rows.map Row.mm).all cellIsNull)
          (maxGt ((f.rows.map Row.mm).map toNumeric) 1.5) r.mm
      else none) := by
  unfold Server.mmNormCol at hns
  rcases hb : f.hasMM with _ | _
  · rw [hb] at hns
    simp only [Bool.false_eq_true, if_false] at hns
    obtain rfl := Option.some.inj hns
    simp only [Bool.false_eq_true, if_false, List.getElem?_map]
  · rw [hb] at hns
    rw [if_pos rfl] at hns
    rw [normalize_copies_eq] at hns
    rw [normalizeRU_getElem hns]
    simp only [if_true, List.getElem?_map, Option.map_map]
    rcases f.rows[i]? with _ | r <;> rfl

lemma computeSV_getElem {f : Frame} {out : List Server.ScoredRow}
    (hf : Server.compute_flags f = some out) (i : ℕ) :
    out[i]? = (f.rows[i]?).map (fun r =>
      Server.scoreRow f
        (if f.hasMM then
          normCell ((f.rows.map Row.mm).all cellIsNull)
            (maxGt ((f.rows.map Row.mm).map toNumeric) 1.5) r.mm
        else none) r) := by
  unfold Server.compute_flags at hf
  rcases hns : Server.mmNormCol f with _ | ns
  · rw [hns] at hf
    simp at hf
  · rw [hns] at hf
    obtain rfl : List.zipWith (Server.scoreRow f) ns f.rows = out := by
      simpa using hf
    rw [List.getElem?_zipWith', mmNormCol_getElem hns]
    rcases f.rows[i]? with _ | r <;> rfl

lemma getElem_computeSV {f : Frame} {out : List Server.ScoredRow} {i : ℕ}
    {r : Row} {sr : Server.ScoredRow} (hf : Server.compute_flags f = some out)
    (hr : f.rows[i]? = some r) (hs : out[i]? = some sr) :
    ∃ mmN, sr = Server.scoreRow f mmN r := by
  rw [computeSV_getElem hf i, hr] at hs
  exact ⟨_, by simpa using hs.symm⟩

lemma computeSV_length {f : Frame} {out : List Server.ScoredRow}
    (hf : Server.compute_flags f = some out) : out.length = f.rows.length := by
  unfold Server.compute_flags at hf
  rcases hns : Server.mmNormCol f with _ | ns
  · rw [hns] at hf
    simp at hf
  · rw [hns] at hf
    obtain rfl : List.zipWith (Server.scoreRow f) ns f.rows = out := by
      simpa using hf
    rw [List.length_zipWith, mmNormCol_length hns]
    simp

/-! ### Idempotence lemmas -/

lemma clip01_idem (q : ℚ) : clip01 (clip01 q) = clip01 q :=
  clip01_of_unit (clip01_nonneg q) (clip01_le_one q)

lemma toNumeric_optCell (x : Option ℚ) : toNumeric (optCell x) = x := by
  cases x <;> rfl

lemma fillna0_clip01opt_bounds (x : Option ℚ) :
    0 ≤ fillna 0 (clip01opt x) ∧ fillna 0 (clip01opt x) ≤ 1 := by
  cases x with
  | none => norm_num [clip01opt, fillna]
  | some p =>
    show 0 ≤ fillna 0 (some (clip01 p)) ∧ fillna 0 (some (clip01 p)) ≤ 1
    exact ⟨clip01_nonneg p, clip01_le_one p⟩

lemma aprValRU_bounds (f : Frame) (r : Row) :
    0 ≤ RiskUtils.aprVal f r ∧ RiskUtils.aprVal f r ≤ 1 := by
  unfold RiskUtils.aprVal
  exact ⟨clip01_nonneg _, clip01_le_one _⟩

lemma aprStoredSV_unit (f : Frame) (r : Row) :
    ∃ w, Server.aprStored f r = some w ∧ 0 ≤ w ∧ w ≤ 1 := by
  unfold Server.aprStored
  exact ⟨_, rfl, (fillna0_clip01opt_bounds _).1, (fillna0_clip01opt_bounds _).2⟩

lemma mmColRU_rerun {f : Frame} {out : List RiskUtils.ScoredRow}
    (hf : RiskUtils.compute_flags f = some out) :
    (rerunRU out).rows.map (RiskUtils.mmCell (rerunRU out)) =
      f.rows.map (RiskUtils.mmCell f) := by
  apply List.ext_getElem?
  intro n
  simp only [rerunRU, List.getElem?_map, computeRU_getElem hf]
  rcases f.rows[n]? with _ | r <;> rfl

lemma aprRescaleRU_rerun {f : Frame} {out : List RiskUtils.ScoredRow}
    (hf : RiskUtils.compute_flags f = some out) :
    RiskUtils.aprRescale (rerunRU out) = false := by
  unfold RiskUtils.aprRescale
  rw [maxGt_eq_false_iff]
  intro q hq
  rw [List.mem_map] at hq
  obtain ⟨r2, hr2, heq⟩ := hq
  obtain rfl : RiskUtils.aprVal0 (rerunRU out) r2 = q := by simpa using heq
  have hr2m : r2 ∈ out.map stripRU := hr2
  rw [List.mem_map] at hr2m
  obtain ⟨sr, hsr, rfl⟩ := hr2m
  obtain ⟨ns, mmN, r, _, _, _, rfl⟩ := mem_computeRU hf hsr
  have hv : RiskUtils.aprVal0 (rerunRU out) (stripRU (RiskUtils.scoreRow f mmN r)) =
      RiskUtils.aprVal f r := rfl
  rw [hv]
  exact le_trans (aprValRU_bounds f r).2 (by norm_num)

lemma scoreRowRU_congr {f g : Frame} (mmN : Option ℚ) {r r2 : Row}
    (h1 : RiskUtils.utilVal f r = RiskUtils.utilVal g r2)
    (h2 : RiskUtils.aprVal f r = RiskUtils.aprVal g r2)
    (h3 : RiskUtils.minDueVal f r = RiskUtils.minDueVal g r2)
    (h4 : RiskUtils.cashVal f r = RiskUtils.cashVal g r2)
    (h5 : RiskUtils.spendVal f r = RiskUtils.spendVal g r2)
    (h6 : RiskUtils.mmCell f r = RiskUtils.mmCell g r2) :
    RiskUtils.scoreRow f mmN r = RiskUtils.scoreRow g mmN r2 := by
  unfold RiskUtils.scoreRow RiskUtils.riskScore RiskUtils.flagUtilSpike
    RiskUtils.flagMinDueStreak RiskUtils.flagLowPayRatio RiskUtils.flagCashAdvance
  rw [h1, h2, h3, h4, h5, h6]

lemma scoreRowRU_rerun (f : Frame) (out : List RiskUtils.ScoredRow)
    (mmN : Option ℚ) (r : Row)
    (hres : RiskUtils.aprRescale (rerunRU out) = false) :
    RiskUtils.scoreRow (rerunRU out) mmN (stripRU (RiskUtils.scoreRow f mmN r)) =
      RiskUtils.scoreRow f mmN r := by
  have hapr : RiskUtils.aprVal (rerunRU out)
      (stripRU (RiskUtils.scoreRow f mmN r)) = RiskUtils.aprVal f r := by
    unfold RiskUtils.aprVal
    rw [hres]
    show clip01 (RiskUtils.aprVal f r) = _
    unfold RiskUtils.aprVal
    exact clip01_idem _
  exact scoreRowRU_congr mmN rfl hapr rfl rfl rfl rfl

lemma computeRU_rerun {f : Frame} {out : List RiskUtils.ScoredRow}
    (hf : RiskUtils.compute_flags f = some out) :
    RiskUtils.compute_flags (rerunRU out) = some out := by
  have hcol := mmColRU_rerun hf
  have hres := aprRescaleRU_rerun hf
  have hfu := hf
  unfold RiskUtils.compute_flags at hfu ⊢
  rw [hcol]
  rcases hns : RiskUtils.normalize_merchant_mix (f.rows.map (RiskUtils.mmCell f))
    with _ | ns
  · rw [hns] at hfu
    simp at hfu
  · rw [hns] at hfu
    obtain hout : List.zipWith (RiskUtils.scoreRow f) ns f.rows = out := by
      simpa using hfu
    simp only [Option.map_some']
    refine congrArg some ?_
    apply List.ext_getElem?
    intro n
    rw [List.getElem?_zipWith']
    have hrows : (rerunRU out).rows[n]? = (out[n]?).map stripRU := by
      show (out.map stripRU)[n]? = _
      rw [List.getElem?_map]
    rw [hrows, computeRU_getElem hf n, normalizeRU_getElem hns]
    simp only [List.getElem?_map, Option.map_map]
    rcases hr : f.rows[n]? with _ | r
    · rfl
    · show some (RiskUtils.scoreRow (rerunRU out) _
          (stripRU (RiskUtils.scoreRow f _ r))) = _
      exact congrArg some (scoreRowRU_rerun f out _ r hres)

lemma mmColSV_rerun {f : Frame} {out : List Server.ScoredRow}
    (hf : Server.compute_flags f = some out) :
    Server.mmNormCol (rerunSV f out) = Server.mmNormCol f := by
  have hmm : (rerunSV f out).rows.map Row.mm = f.rows.map Row.mm := by
    apply List.ext_getElem?
    intro n
    simp only [rerunSV, List.getElem?_map, computeSV_getElem hf]
    rcases f.rows[n]? with _ | r <;> rfl
  unfold Server.mmNormCol
  have hh : (rerunSV f out).hasMM = f.hasMM := rfl
  rw [hh, hmm]
  rcases hb : f.hasMM with _ | _
  · simp only [Bool.false_eq_true, if_false]
    refine congrArg some ?_
    apply List.ext_getElem?
    intro n
    simp only [rerunSV, List.getElem?_map, computeSV_getElem hf]
    rcases f.rows[n]? with _ | r <;> rfl
  · rfl

lemma aprRescaleSV_rerun {f : Frame} {out : List Server.ScoredRow}
    (hf : Server.compute_flags f = some out) :
    Server.aprRescale (rerunSV f out) = false := by
  unfold Server.aprRescale
  rw [maxGt_eq_false_iff]
  intro q hq
  rw [List.mem_map] at hq
  obtain ⟨r2, hr2, heq⟩ := hq
  have hr2m : r2 ∈ out.map stripSV := hr2
  rw [List.mem_map] at hr2m
  obtain ⟨sr, hsr, rfl⟩ := hr2m
  obtain ⟨ns, mmN, r, _, _, _, rfl⟩ := mem_computeSV hf hsr
  have ha : Server.aprV0 (rerunSV f out) (stripSV (Server.scoreRow f mmN r)) =
      Server.aprStored f r := by
    show toNumeric (optCell (Server.aprStored f r)) = Server.aprStored f r
    exact toNumeric_optCell _
  rw [ha] at heq
  obtain ⟨w, hw, h0, h1⟩ := aprStoredSV_unit f r
  rw [hw] at heq
  obtain rfl : w = q := by simpa using heq
  exact le_trans h1 (by norm_num)

lemma scoreRowSV_congr {f g : Frame} (mmN : Option ℚ) {r r2 : Row}
    (h1 : Server.utilV f r = Server.utilV g r2)
    (h2 : Server.aprStored f r = Server.aprStored g r2)
    (h3 : Server.minDueV f r = Server.minDueV g r2)
    (h4 : Server.cashV f r = Server.cashV g r2)
    (h5 : Server.spendV f r = Server.spendV g r2)
    (h6 : r.mm = r2.mm) :
    Server.scoreRow f mmN r = Server.scoreRow g mmN r2 := by
  unfold Server.scoreRow Server.riskScore Server.flagUtilSpike
    Server.flagMinDueStreak Server.flagLowPayRatio Server.flagCashAdvance
  rw [h1, h2, h3, h4, h5, h6]

lemma scoreRowSV_rerun (f : Frame) (out : List Server.ScoredRow)
    (mmN : Option ℚ) (r : Row)
    (hres : Server.aprRescale (rerunSV f out) = false) :
    Server.scoreRow (rerunSV f out) mmN (stripSV (Server.scoreRow f mmN r)) =
      Server.scoreRow f mmN r := by
  have h2 : Server.aprStored (rerunSV f out) (stripSV (Server.scoreRow f mmN r)) =
      Server.aprStored f r := by
    obtain ⟨w, hw, h0, h1⟩ := aprStoredSV_unit f r
    have ha : Server.aprV0 (rerunSV f out) (stripSV (Server.scoreRow f mmN r)) =
        Server.aprStored f r := by
      show toNumeric (optCell (Server.aprStored f r)) = Server.aprStored f r
      exact toNumeric_optCell _
    rw [hw] at ha
    rw [hw]
    unfold Server.aprStored
    rw [hres]
    show some (fillna 0 (clip01opt
      (Server.aprV0 (rerunSV f out) (stripSV (Server.scoreRow f mmN r))))) = some w
    rw [ha]
    show some (fillna 0 (some (clip01 w))) = some w
    rw [clip01_of_unit h0 h1]
    rfl
  have h1 : Server.utilV (rerunSV f out) (stripSV (Server.scoreRow f mmN r)) =
      Server.utilV f r := by
    show toNumeric (optCell (Server.utilV f r)) = Server.utilV f r
    exact toNumeric_optCell _
  have h3 : Server.minDueV (rerunSV f out) (stripSV (Server.scoreRow f mmN r)) =
      Server.minDueV f r := by
    show toNumeric (optCell (Server.minDueV f r)) = Server.minDueV f r
    exact toNumeric_optCell _
  have h4 : Server.cashV (rerunSV f out) (stripSV (Server.scoreRow f mmN r)) =
      Server.cashV f r := by
    show toNumeric (optCell (Server.cashV f r)) = Server.cashV f r
    exact toNumeric_optCell _
  have h5 : Server.spendV (rerunSV f out) (stripSV (Server.scoreRow f mmN r)) =
      Server.spendV f r := by
    show toNumeric (optCell (Server.spendV f r)) = Server.spendV f r
    exact toNumeric_optCell _
  exact scoreRowSV_congr mmN h1 h2 h3 h4 h5 rfl

lemma computeSV_rerun {f : Frame} {out : List Server.ScoredRow}
    (hf : Server.compute_flags f = some out) :
    Server.compute_flags (rerunSV f out) = some out := by
  have hcol := mmColSV_rerun hf
  have hres := aprRescaleSV_rerun hf
  have hfu := hf
  unfold Server.compute_flags at hfu ⊢
  rw [hcol]
  rcases hns : Server.mmNormCol f with _ | ns
  · rw [hns] at hfu
    simp at hfu
  · rw [hns] at hfu
    obtain hout : List.zipWith (Server.scoreRow f) ns f.rows = out := by
      simpa using hfu
    simp only [Option.map_some']
    refine congrArg some ?_
    apply List.ext_getElem?
    intro n
    rw [List.getElem?_zipWith']
    have hrows : (rerunSV f out).rows[n]? = (out[n]?).map stripSV := by
      show (out.map stripSV)[n]? = _
      rw [List.getElem?_map]
    rw [hrows, computeSV_getElem hf n, mmNormCol_getElem hns]
    simp only [List.getElem?_map, Option.map_map]
    rcases hr : f.rows[n]? with _ | r
    · rfl
    · show some (Server.scoreRow (rerunSV f out) _
          (stripSV (Server.scoreRow f _ r))) = _
      exact congrArg some (scoreRowSV_rerun f out _ r hres)

/-! ### Row-locality lemmas -/

lemma flagsRU_row_local {f g : Frame} (r : Row)
    (hu : f.hasUtil = g.hasUtil) (hsp : f.hasSpendChg = g.hasSpendChg)
    (hm : f.hasMinDue = g.hasMinDue) (hc : f.hasCashW = g.hasCashW) :
    RiskUtils.flagUtilSpike f r = RiskUtils.flagUtilSpike g r ∧
      RiskUtils.flagMinDueStreak f r = RiskUtils.flagMinDueStreak g r ∧
      RiskUtils.flagCashAdvance f r = RiskUtils.flagCashAdvance g r := by
  unfold RiskUtils.flagUtilSpike RiskUtils.flagMinDueStreak RiskUtils.flagCashAdvance
    RiskUtils.utilVal RiskUtils.spendVal RiskUtils.minDueVal RiskUtils.cashVal
    RiskUtils.utilCell RiskUtils.spendCell RiskUtils.minDueCell RiskUtils.cashCell
  rw [hu, hsp, hm, hc]
  exact ⟨rfl, rfl, rfl⟩

lemma flagsSV_row_local {f g : Frame} (r : Row)
    (hu : f.hasUtil = g.hasUtil) (hsp : f.hasSpendChg = g.hasSpendChg)
    (hm : f.hasMinDue = g.hasMinDue) (hc : f.hasCashW = g.hasCashW) :
    Server.flagUtilSpike f r = Server.flagUtilSpike g r ∧
      Server.flagMinDueStreak f r = Server.flagMinDueStreak g r ∧
      Server.flagCashAdvance f r = Server.flagCashAdvance g r := by
  unfold Server.flagUtilSpike Server.flagMinDueStreak Server.flagCashAdvance
    Server.utilV Server.spendV Server.minDueV Server.cashV
  rw [hu, hsp, hm, hc]
  exact ⟨rfl, rfl, rfl⟩

/-! ### Claims -/

/-- C1: For every input table on which the engine succeeds and every record
of the output, the derived `risk_score` equals the number of true
(non-zero) flags among the five boolean flags flag_util_spike,
flag_min_due_streak, flag_low_pay_ratio, flag_cash_advance,
flag_merchant_shift, so `risk_score` is an integer in 0..5 — on both the
batch and the serving copy of the engine. -/
theorem c1_risk_score_counts_true_flags :
    (∀ (f : Frame) (out : List RiskUtils.ScoredRow),
      RiskUtils.compute_flags f = some out → ∀ sr ∈ out,
        sr.risk_score = trueFlagCount [sr.flag_util_spike, sr.flag_min_due_streak,
          sr.flag_low_pay_ratio, sr.flag_cash_advance, sr.flag_merchant_shift] ∧
          sr.risk_score ≤ 5) ∧
    (∀ (f : Frame) (out : List Server.ScoredRow),
      Server.compute_flags f = some out → ∀ sr ∈ out,
        sr.risk_score = trueFlagCount [sr.flag_util_spike, sr.flag_min_due_streak,
          sr.flag_low_pay_ratio, sr.flag_cash_advance, sr.flag_merchant_shift] ∧
          sr.risk_score ≤ 5) := by
  constructor
  · intro f out hf sr h
    obtain ⟨ns, mmN, r, _, _, _, rfl⟩ := mem_computeRU hf h
    obtain ⟨h1, h2, h3, h4, h5⟩ := flagsRU_le_one f mmN r
    exact ⟨sum_flags_eq_count h1 h2 h3 h4 h5, riskScoreRU_le_five f mmN r⟩
  · intro f out hf sr h
    obtain ⟨ns, mmN, r, _, _, _, rfl⟩ := mem_computeSV hf h
    obtain ⟨h1, h2, h3, h4, h5⟩ := flagsSV_le_one f mmN r
    exact ⟨sum_flags_eq_count h1 h2 h3 h4 h5, riskScoreSV_le_five f mmN r⟩

/-- Witness for C1: the concrete one-row table `frameA` (Utilisation 85,
Recent Spend Change 25, payment ratio 0.9, merchant mix 0.9). -/
theorem c1_witness :
    (RiskUtils.compute_flags frameA =
        some [RiskUtils.scoreRow frameA (some 0.9) rowA]) ∧
      (RiskUtils.scoreRow frameA (some 0.9) rowA).risk_score =
        trueFlagCount [(RiskUtils.scoreRow frameA (some 0.9) rowA).flag_util_spike,
          (RiskUtils.scoreRow frameA (some 0.9) rowA).flag_min_due_streak,
          (RiskUtils.scoreRow frameA (some 0.9) rowA).flag_low_pay_ratio,
          (RiskUtils.scoreRow frameA (some 0.9) rowA).flag_cash_advance,
          (RiskUtils.scoreRow frameA (some 0.9) rowA).flag_merchant_shift] ∧
      (RiskUtils.scoreRow frameA (some 0.9) rowA).risk_score ≤ 5 := by
  have hc : clip01 (9/10) = 9/10 := clip01_of_unit (by norm_num) (by norm_num)
  have hout : RiskUtils.compute_flags frameA =
      some [RiskUtils.scoreRow frameA (some 0.9) rowA] := by
    norm_num [RiskUtils.compute_flags, RiskUtils.normalize_merchant_mix, frameA,
      rowA, RiskUtils.mmCell, cellIf, cellIsNull, cellIsNonnum, toNumeric,
      maxGt, smax, clip01opt, hc]
  have hp := c1_risk_score_counts_true_flags.1 frameA _ hout _
    (List.mem_singleton.mpr rfl)
  exact ⟨hout, hp.1, hp.2⟩

/-- C2: For every output record, `risk_tier` is a deterministic function of
`risk_score` through the `pd.cut` bucketing over `(-1, 0, 1, 999]`: Low iff
score = 0, Medium iff score = 1, High iff score ≥ 2 — on both engine
copies. -/
theorem c2_risk_tier_buckets_score :
    (∀ (f : Frame) (out : List RiskUtils.ScoredRow),
      RiskUtils.compute_flags f = some out → ∀ sr ∈ out,
        (sr.risk_tier = some Tier.Low ↔ sr.risk_score = 0) ∧
          (sr.risk_tier = some Tier.Medium ↔ sr.risk_score = 1) ∧
          (sr.risk_tier = some Tier.High ↔ 2 ≤ sr.risk_score)) ∧
    (∀ (f : Frame) (out : List Server.ScoredRow),
      Server.compute_flags f = some out → ∀ sr ∈ out,
        (sr.risk_tier = some Tier.Low ↔ sr.risk_score = 0) ∧
          (sr.risk_tier = some Tier.Medium ↔ sr.risk_score = 1) ∧
          (sr.risk_tier = some Tier.High ↔ 2 ≤ sr.risk_score)) := by
  constructor
  · intro f out hf sr h
    obtain ⟨ns, mmN, r, _, _, _, rfl⟩ := mem_computeRU hf h
    exact cutTier_cases (riskScoreRU_le_five f mmN r)
  · intro f out hf sr h
    obtain ⟨ns, mmN, r, _, _, _, rfl⟩ := mem_computeSV hf h
    exact cutTier_cases (riskScoreSV_le_five f mmN r)

/-- Witness for C2: the concrete one-row table `frameMM1`. -/
theorem c2_witness :
    (RiskUtils.compute_flags frameMM1 =
        some [RiskUtils.scoreRow frameMM1 (some 0.9) rowMM09]) ∧
      ((RiskUtils.scoreRow frameMM1 (some 0.9) rowMM09).risk_tier = some Tier.Low ↔
        (RiskUtils.scoreRow frameMM1 (some 0.9) rowMM09).risk_score = 0) := by
  have hc : clip01 (9/10) = 9/10 := clip01_of_unit (by norm_num) (by norm_num)
  have hout : RiskUtils.compute_flags frameMM1 =
      some [RiskUtils.scoreRow frameMM1 (some 0.9) rowMM09] := by
    norm_num [RiskUtils.compute_flags, RiskUtils.normalize_merchant_mix, frameMM1,
      rowMM09, RiskUtils.mmCell, cellIf, cellIsNull, cellIsNonnum, toNumeric,
      maxGt, smax, clip01opt, hc]
  exact ⟨hout, (c2_risk_tier_buckets_score.1 frameMM1 _ hout _
    (List.mem_singleton.mpr rfl)).1⟩

/-- C5: on every merchant column free of non-numeric values (the data model
declares the column numeric; on non-numeric values both copies raise
instead, see C10), both copies of the merchant-mix normalization succeed
and implement exactly the specified algorithm: pass an entirely-missing
column through unchanged, else divide the whole column by 100 when the
maximum observed value exceeds 1.5, then clip to [0,1]. -/
theorem c5_normalize_matches_spec :
    (∀ s : List Cell, s.any cellIsNonnum = false →
        RiskUtils.normalize_merchant_mix s =
          some (specNormalizeMerchantMix (s.map toNumeric))) ∧
      (∀ s : List Cell, s.any cellIsNonnum = false →
        Server.normalize_merchant_mix s =
          some (specNormalizeMerchantMix (s.map toNumeric))) :=
  ⟨fun _ h => normalizeRU_eq_spec h,
   fun s h => (normalize_copies_eq s).trans (normalizeRU_eq_spec h)⟩

/-- Witness for C5: the concrete column [90, NaN] (0-100 scale, one
missing value), on both copies. -/
theorem c5_witness :
    ([Cell.num 90, Cell.missing].any cellIsNonnum = false) ∧
      RiskUtils.normalize_merchant_mix [Cell.num 90, Cell.missing] =
        some (specNormalizeMerchantMix ([Cell.num 90, Cell.missing].map toNumeric)) ∧
      Server.normalize_merchant_mix [Cell.num 90, Cell.missing] =
        some (specNormalizeMerchantMix ([Cell.num 90, Cell.missing].map toNumeric)) :=
  ⟨rfl, c5_normalize_matches_spec.1 _ rfl, c5_normalize_matches_spec.2 _ rfl⟩

/-- C9: on both engine copies, for every output record the `reasons` field
is the labels of exactly the true flags joined in flag-declaration order
(Util Spike, Min Due Streak, Low Payment Ratio, Cash Advance, Merchant Mix
Shift) with ", " as separator, and is the literal string "None" when no
flag is true (equivalently, when risk_score = 0). -/
theorem c9_reasons_are_true_flag_labels :
    (∀ (f : Frame) (out : List RiskUtils.ScoredRow),
      RiskUtils.compute_flags f = some out → ∀ sr ∈ out,
        sr.reasons =
          (if trueLabels sr.flag_util_spike sr.flag_min_due_streak
              sr.flag_low_pay_ratio sr.flag_cash_advance sr.flag_merchant_shift = []
            then "None"
            else String.intercalate ", "
              (trueLabels sr.flag_util_spike sr.flag_min_due_streak
                sr.flag_low_pay_ratio sr.flag_cash_advance sr.flag_merchant_shift)) ∧
          (trueLabels sr.flag_util_spike sr.flag_min_due_streak sr.flag_low_pay_ratio
              sr.flag_cash_advance sr.flag_merchant_shift = [] ↔ sr.risk_score = 0)) ∧
    (∀ (f : Frame) (out : List Server.ScoredRow),
      Server.compute_flags f = some out → ∀ sr ∈ out,
        sr.reasons =
          (if trueLabels sr.flag_util_spike sr.flag_min_due_streak
              sr.flag_low_pay_ratio sr.flag_cash_advance sr.flag_merchant_shift = []
            then "None"
            else String.intercalate ", "
              (trueLabels sr.flag_util_spike sr.flag_min_due_streak
                sr.flag_low_pay_ratio sr.flag_cash_advance sr.flag_merchant_shift)) ∧
          (trueLabels sr.flag_util_spike sr.flag_min_due_streak sr.flag_low_pay_ratio
              sr.flag_cash_advance sr.flag_merchant_shift = [] ↔ sr.risk_score = 0)) := by
  constructor
  · intro f out hf sr h
    obtain ⟨ns, mmN, r, _, _, _, rfl⟩ := mem_computeRU hf h
    constructor
    · show RiskUtils.reasons_for_row _ _ _ _ _ = _
      unfold RiskUtils.reasons_for_row trueLabels
      simp only [List.isEmpty_iff]
      rfl
    · exact trueLabels_nil_iff
  · intro f out hf sr h
    obtain ⟨ns, mmN, r, _, _, _, rfl⟩ := mem_computeSV hf h
    constructor
    · show Server.get_reasons _ _ _ _ _ = _
      unfold Server.get_reasons trueLabels
      simp only [List.isEmpty_iff]
      rfl
    · exact trueLabels_nil_iff

/-- Witness for C9: the concrete one-row table `frameApr50`. -/
theorem c9_witness :
    (RiskUtils.compute_flags frameApr50 =
        some [RiskUtils.scoreRow frameApr50 (some 0.9) rowApr50]) ∧
      (RiskUtils.scoreRow frameApr50 (some 0.9) rowApr50).reasons =
        (if trueLabels (RiskUtils.scoreRow frameApr50 (some 0.9) rowApr50).flag_util_spike
            (RiskUtils.scoreRow frameApr50 (some 0.9) rowApr50).flag_min_due_streak
            (RiskUtils.scoreRow frameApr50 (some 0.9) rowApr50).flag_low_pay_ratio
            (RiskUtils.scoreRow frameApr50 (some 0.9) rowApr50).flag_cash_advance
            (RiskUtils.scoreRow frameApr50 (some 0.9) rowApr50).flag_merchant_shift = []
          then "None"
          else String.intercalate ", "
            (trueLabels (RiskUtils.scoreRow frameApr50 (some 0.9) rowApr50).flag_util_spike
              (RiskUtils.scoreRow frameApr50 (some 0.9) rowApr50).flag_min_due_streak
              (RiskUtils.scoreRow frameApr50 (some 0.9) rowApr50).flag_low_pay_ratio
              (RiskUtils.scoreRow frameApr50 (some 0.9) rowApr50).flag_cash_advance
              (RiskUtils.scoreRow frameApr50 (some 0.9) rowApr50).flag_merchant_shift)) := by
  have hc : clip01 (9/10) = 9/10 := clip01_of_unit (by norm_num) (by norm_num)
  have hout : RiskUtils.compute_flags frameApr50 =
      some [RiskUtils.scoreRow frameApr50 (some 0.9) rowApr50] := by
    norm_num [RiskUtils.compute_flags, RiskUtils.normalize_merchant_mix, frameApr50,
      rowApr50, RiskUtils.mmCell, cellIf, cellIsNull, cellIsNonnum, toNumeric,
      maxGt, smax, clip01opt, hc]
  exact ⟨hout, (c9_reasons_are_true_flag_labels.1 frameApr50 _ hout _
    (List.mem_singleton.mpr rfl)).1⟩

/-- C3 counterexample: on the serving path, the record of `frameMissingApr`
has a missing "Avg Payment Ratio", yet its flag_low_pay_ratio is 1 — the
missing ratio DOES set the flag, contrary to the claim that the serving
path fills it with 1.0 first: the `.clip(0,1).fillna(0)` of line 150
replaces the NaN with 0 before the `.fillna(1)` of the flag can see it. -/
theorem c3_counterexample :
    frameMissingApr.rows.map (fun r => toNumeric r.apr) = [none] ∧
      (Server.compute_flags frameMissingApr).map
        (List.map Server.ScoredRow.flag_low_pay_ratio) = some [1] ∧
      (Server.compute_flags frameMissingApr).map
        (List.map Server.ScoredRow.flag_low_pay_ratio) ≠ some [0] := by
  have h1 : (Server.compute_flags frameMissingApr).map
      (List.map Server.ScoredRow.flag_low_pay_ratio) = some [1] := by
    norm_num [Server.compute_flags, Server.mmNormCol, Server.normalize_merchant_mix,
      Server.scoreRow, Server.flagUtilSpike, Server.flagMinDueStreak,
      Server.flagLowPayRatio, Server.flagCashAdvance, Server.flagMerchantShift,
      Server.utilV, Server.aprV0, Server.minDueV, Server.cashV, Server.spendV,
      Server.aprStored, Server.aprRescale, frameMissingApr, rowMissingApr,
      cellIf, cellIsNull, cellIsNonnum, toNumeric, fillna, clip01opt, clip01,
      maxGt, smax]
  refine ⟨rfl, h1, ?_⟩
  rw [h1]
  simp

/-- C3 (amended): on BOTH paths a missing "Avg Payment Ratio" is filled
with 0.0 before flag_low_pay_ratio is evaluated — on the batch path by the
`.fillna(0.0)` at coercion, on the serving path by `.clip(0,1).fillna(0)`
(line 150), which makes the `.fillna(1)` inside the flag expression a
no-op — so a missing payment ratio always sets flag_low_pay_ratio. -/
theorem c3_amended_missing_apr_sets_flag :
    (∀ (f : Frame) (out : List RiskUtils.ScoredRow) (i : ℕ) (r : Row)
        (sr : RiskUtils.ScoredRow),
      RiskUtils.compute_flags f = some out → f.rows[i]? = some r →
        out[i]? = some sr → toNumeric (cellIf f.hasApr r.apr) = none →
          sr.flag_low_pay_ratio = 1) ∧
    (∀ (f : Frame) (out : List Server.ScoredRow) (i : ℕ) (r : Row)
        (sr : Server.ScoredRow),
      Server.compute_flags f = some out → f.rows[i]? = some r →
        out[i]? = some sr → toNumeric (cellIf f.hasApr r.apr) = none →
          sr.flag_low_pay_ratio = 1) := by
  constructor
  · intro f out i r sr hf hr hs hnone
    obtain ⟨mmN, rfl⟩ := getElem_computeRU hf hr hs
    have h0 : RiskUtils.aprVal0 f r = 0 := by
      unfold RiskUtils.aprVal0 RiskUtils.aprCell
      rw [hnone]
      rfl
    have hv : RiskUtils.aprVal f r = 0 := by
      unfold RiskUtils.aprVal
      rw [h0]
      rcases RiskUtils.aprRescale f with _ | _ <;> norm_num [clip01]
    show RiskUtils.flagLowPayRatio f r = 1
    unfold RiskUtils.flagLowPayRatio
    rw [hv, if_pos (by norm_num)]
  · intro f out i r sr hf hr hs hnone
    obtain ⟨mmN, rfl⟩ := getElem_computeSV hf hr hs
    have h0 : Server.aprV0 f r = none := hnone
    have hv : Server.aprStored f r = some 0 := by
      unfold Server.aprStored
      rw [h0]
      rcases Server.aprRescale f with _ | _ <;> rfl
    show Server.flagLowPayRatio f r = 1
    unfold Server.flagLowPayRatio
    rw [hv, if_pos (by norm_num [fillna])]

/-- Witness for C3 (amended): the concrete table `frameMissingApr`, on both
paths. -/
theorem c3_witness :
    frameMissingApr.rows[0]? = some rowMissingApr ∧
      toNumeric (cellIf frameMissingApr.hasApr rowMissingApr.apr) = none ∧
      (RiskUtils.compute_flags frameMissingApr =
        some [RiskUtils.scoreRow frameMissingApr (some 0.9) rowMissingApr]) ∧
      (Server.compute_flags frameMissingApr =
        some [Server.scoreRow frameMissingApr (some 0.9) rowMissingApr]) ∧
      (RiskUtils.scoreRow frameMissingApr (some 0.9) rowMissingApr).flag_low_pay_ratio = 1 ∧
      (Server.scoreRow frameMissingApr (some 0.9) rowMissingApr).flag_low_pay_ratio = 1 := by
  have hc : clip01 (9/10) = 9/10 := clip01_of_unit (by norm_num) (by norm_num)
  have hru : RiskUtils.compute_flags frameMissingApr =
      some [RiskUtils.scoreRow frameMissingApr (some 0.9) rowMissingApr] := by
    norm_num [RiskUtils.compute_flags, RiskUtils.normalize_merchant_mix,
      frameMissingApr, rowMissingApr, RiskUtils.mmCell, cellIf, cellIsNull,
      cellIsNonnum, toNumeric, maxGt, smax, clip01opt, hc]
  have hsv : Server.compute_flags frameMissingApr =
      some [Server.scoreRow frameMissingApr (some 0.9) rowMissingApr] := by
    norm_num [Server.compute_flags, Server.mmNormCol, Server.normalize_merchant_mix,
      frameMissingApr, rowMissingApr, cellIsNull, cellIsNonnum, toNumeric,
      maxGt, smax, clip01opt, hc]
  refine ⟨rfl, rfl, hru, hsv, ?_, ?_⟩
  · exact c3_amended_missing_apr_sets_flag.1 frameMissingApr _ 0 rowMissingApr _
      hru rfl rfl rfl
  · exact c3_amended_missing_apr_sets_flag.2 frameMissingApr _ 0 rowMissingApr _
      hsv rfl rfl rfl

/-- C4 counterexample: for the table `frameNoMM`, whose "Merchant Mix
Index" column is absent, the MerchantMix_norm value of the batch engine is
NaN (`none`) — not a number in [0,1] as the claim requires "including when
the source column is absent". -/
theorem c4_counterexample :
    frameNoMM.hasMM = false ∧
      (RiskUtils.compute_flags frameNoMM).map
        (List.map RiskUtils.ScoredRow.mmNorm) = some [none] ∧
      (RiskUtils.compute_flags frameNoMM).map
        (List.map (fun sr => optInUnit sr.mmNorm)) = some [false] := by
  refine ⟨rfl, ?_, ?_⟩ <;>
    norm_num [RiskUtils.compute_flags, RiskUtils.normalize_merchant_mix,
      frameNoMM, rowA, RiskUtils.mmCell, cellIf, cellIsNull, cellIsNonnum,
      toNumeric, optInUnit, RiskUtils.scoreRow]

/-- C4 (amended): the normalized payment-ratio column always lies in [0,1]
on both paths; every NON-missing MerchantMix_norm value lies in [0,1]; but
when the merchant column is absent or a merchant value is missing, the
MerchantMix_norm value is NaN rather than a number in [0,1]. -/
theorem c4_amended_norms_in_unit_interval :
    (∀ (f : Frame) (out : List RiskUtils.ScoredRow),
      RiskUtils.compute_flags f = some out → ∀ sr ∈ out,
        (0 ≤ sr.apr ∧ sr.apr ≤ 1) ∧
          ∀ q : ℚ, sr.mmNorm = some q → 0 ≤ q ∧ q ≤ 1) ∧
    (∀ (f : Frame) (out : List Server.ScoredRow),
      Server.compute_flags f = some out → ∀ sr ∈ out,
        (∃ q : ℚ, sr.apr = some q ∧ 0 ≤ q ∧ q ≤ 1) ∧
          ∀ q : ℚ, sr.mmNorm = some q → 0 ≤ q ∧ q ≤ 1) := by
  constructor
  · intro f out hf sr h
    obtain ⟨ns, mmN, r, hns, hmm, _, rfl⟩ := mem_computeRU hf h
    constructor
    · exact ⟨clip01_nonneg _, clip01_le_one _⟩
    · intro q hq
      have hq2 : mmN = some q := hq
      rcases normalizeRU_mem_cases hns hmm with hnone | ⟨p, hp, h0, h1⟩
      · rw [hnone] at hq2
        simp at hq2
      · rw [hp] at hq2
        obtain rfl : p = q := by simpa using hq2
        exact ⟨h0, h1⟩
  · intro f out hf sr h
    obtain ⟨ns, mmN, r, hns, hmm, _, rfl⟩ := mem_computeSV hf h
    constructor
    · exact aprStoredSV_unit f r
    · intro q hq
      have hq2 : mmN = some q := hq
      rcases mmNormCol_mem_cases hns hmm with hnone | ⟨p, hp, h0, h1⟩
      · rw [hnone] at hq2
        simp at hq2
      · rw [hp] at hq2
        obtain rfl : p = q := by simpa using hq2
        exact ⟨h0, h1⟩

/-- Witness for C4 (amended): the concrete table `frameA`. -/
theorem c4_witness :
    (RiskUtils.compute_flags frameA =
        some [RiskUtils.scoreRow frameA (some 0.9) rowA]) ∧
      (0 ≤ (RiskUtils.scoreRow frameA (some 0.9) rowA).apr ∧
        (RiskUtils.scoreRow frameA (some 0.9) rowA).apr ≤ 1) ∧
      ((RiskUtils.scoreRow frameA (some 0.9) rowA).mmNorm = some 0.9 ∧
        0 ≤ (0.9 : ℚ) ∧ (0.9 : ℚ) ≤ 1) := by
  have hc : clip01 (9/10) = 9/10 := clip01_of_unit (by norm_num) (by norm_num)
  have hout : RiskUtils.compute_flags frameA =
      some [RiskUtils.scoreRow frameA (some 0.9) rowA] := by
    norm_num [RiskUtils.compute_flags, RiskUtils.normalize_merchant_mix, frameA,
      rowA, RiskUtils.mmCell, cellIf, cellIsNull, cellIsNonnum, toNumeric,
      maxGt, smax, clip01opt, hc]
  have hp := c4_amended_norms_in_unit_interval.1 frameA _ hout _
    (List.mem_singleton.mpr rfl)
  exact ⟨hout, hp.1, rfl, hp.2 (0.9 : ℚ) rfl⟩

/-- C6 counterexample: the record of `frameApr50` enters with
"Avg Payment Ratio" = 50 and leaves with "Avg Payment Ratio" = 0.5: the
input field is overwritten by the scaled/clipped value in the output
record, not preserved alongside a separate derived field. -/
theorem c6_counterexample :
    frameApr50.rows.map (fun r => r.apr) = [Cell.num 50] ∧
      (RiskUtils.compute_flags frameApr50).map
        (List.map RiskUtils.ScoredRow.apr) = some [1/2] ∧
      ((1 : ℚ)/2) ≠ 50 := by
  refine ⟨rfl, ?_, by norm_num⟩
  norm_num [RiskUtils.compute_flags, RiskUtils.normalize_merchant_mix, frameApr50,
    rowApr50, RiskUtils.mmCell, cellIf, cellIsNull, cellIsNonnum, maxGt, smax,
    clip01opt, clip01, RiskUtils.scoreRow, RiskUtils.aprVal, RiskUtils.aprVal0,
    RiskUtils.aprRescale, RiskUtils.aprCell, toNumeric, fillna]

/-- C6 (amended): wherever the engine succeeds it preserves the record
count and passes "Merchant Mix Index" through unchanged, adding
MerchantMix_norm as a separate derived field; but the five numeric input
columns are NOT preserved: they are overwritten in place with their
coerced (and, for "Avg Payment Ratio", scaled and clipped) values, and no
separate AvgPaymentRatioNorm field exists. -/
theorem c6_amended_output_overwrites_numeric_columns :
    (∀ (f : Frame) (out : List RiskUtils.ScoredRow),
      RiskUtils.compute_flags f = some out → out.length = f.rows.length) ∧
    (∀ (f : Frame) (out : List Server.ScoredRow),
      Server.compute_flags f = some out → out.length = f.rows.length) ∧
    (∀ (f : Frame) (out : List RiskUtils.ScoredRow) (i : ℕ) (r : Row)
        (sr : RiskUtils.ScoredRow),
      RiskUtils.compute_flags f = some out → f.rows[i]? = some r →
        out[i]? = some sr →
        sr.mm = RiskUtils.mmCell f r ∧ sr.util = RiskUtils.utilVal f r ∧
          sr.apr = RiskUtils.aprVal f r) ∧
    (∀ (f : Frame) (out : List Server.ScoredRow) (i : ℕ) (r : Row)
        (sr : Server.ScoredRow),
      Server.compute_flags f = some out → f.rows[i]? = some r →
        out[i]? = some sr →
        sr.mm = r.mm ∧ sr.util = Server.utilV f r ∧
          sr.apr = Server.aprStored f r) := by
  refine ⟨fun f out hf => computeRU_length hf,
    fun f out hf => computeSV_length hf, ?_, ?_⟩
  · intro f out i r sr hf hr hs
    obtain ⟨mmN, rfl⟩ := getElem_computeRU hf hr hs
    exact ⟨rfl, rfl, rfl⟩
  · intro f out i r sr hf hr hs
    obtain ⟨mmN, rfl⟩ := getElem_computeSV hf hr hs
    exact ⟨rfl, rfl, rfl⟩

/-- Witness for C6 (amended): the concrete table `frameApr50`. -/
theorem c6_witness :
    frameApr50.rows[0]? = some rowApr50 ∧
      (RiskUtils.compute_flags frameApr50 =
        some [RiskUtils.scoreRow frameApr50 (some 0.9) rowApr50]) ∧
      ((RiskUtils.scoreRow frameApr50 (some 0.9) rowApr50).mm =
        RiskUtils.mmCell frameApr50 rowApr50 ∧
      (RiskUtils.scoreRow frameApr50 (some 0.9) rowApr50).util =
        RiskUtils.utilVal frameApr50 rowApr50 ∧
      (RiskUtils.scoreRow frameApr50 (some 0.9) rowApr50).apr =
        RiskUtils.aprVal frameApr50 rowApr50) := by
  have hc : clip01 (9/10) = 9/10 := clip01_of_unit (by norm_num) (by norm_num)
  have hout : RiskUtils.compute_flags frameApr50 =
      some [RiskUtils.scoreRow frameApr50 (some 0.9) rowApr50] := by
    norm_num [RiskUtils.compute_flags, RiskUtils.normalize_merchant_mix, frameApr50,
      rowApr50, RiskUtils.mmCell, cellIf, cellIsNull, cellIsNonnum, toNumeric,
      maxGt, smax, clip01opt, hc]
  exact ⟨rfl, hout,
    c6_amended_output_overwrites_numeric_columns.2.2.1 frameApr50 _ 0 rowApr50 _
      hout rfl rfl⟩

/-- C8 counterexample: the record with merchant mix 0.9 has
flag_merchant_shift = 0 (risk_score 0) alone in `frameMM1`, but appending
one record with merchant mix 90 (`frameMM2`) flips the column onto the
0-100 scale (max > 1.5), so the merchant mix of the SAME record is divided
by 100 and its flag becomes 1 (risk_score 1): flags are not a function of
the own fields of the record alone. -/
theorem c8_counterexample :
    frameMM2.rows = frameMM1.rows ++ [rowMM90] ∧
      (RiskUtils.compute_flags frameMM1).map
        (List.map RiskUtils.ScoredRow.flag_merchant_shift) = some [0] ∧
      (RiskUtils.compute_flags frameMM2).map
        (List.map RiskUtils.ScoredRow.flag_merchant_shift) = some [1, 0] ∧
      (RiskUtils.compute_flags frameMM1).map
        (List.map RiskUtils.ScoredRow.risk_score) = some [0] ∧
      (RiskUtils.compute_flags frameMM2).map
        (List.map RiskUtils.ScoredRow.risk_score) = some [1, 0] := by
  refine ⟨rfl, ?_, ?_, ?_, ?_⟩ <;>
    norm_num [RiskUtils.compute_flags, RiskUtils.normalize_merchant_mix,
      frameMM1, frameMM2, rowMM09, rowMM90, RiskUtils.mmCell, cellIf,
      cellIsNull, cellIsNonnum, maxGt, smax, clip01opt, clip01,
      RiskUtils.scoreRow, RiskUtils.riskScore, RiskUtils.flagUtilSpike,
      RiskUtils.flagMinDueStreak, RiskUtils.flagLowPayRatio,
      RiskUtils.flagCashAdvance, RiskUtils.flagMerchantShift, leNaN,
      RiskUtils.aprVal, RiskUtils.aprVal0, RiskUtils.aprRescale,
      RiskUtils.utilVal, RiskUtils.minDueVal, RiskUtils.cashVal,
      RiskUtils.spendVal, RiskUtils.utilCell, RiskUtils.aprCell,
      RiskUtils.minDueCell, RiskUtils.cashCell, RiskUtils.spendCell,
      toNumeric, fillna]

/-- C8 (amended): flag_util_spike, flag_min_due_streak and
flag_cash_advance are functions of the own fields of the record (given the
same column presence), unchanged by adding or removing other records; but
flag_low_pay_ratio and flag_merchant_shift read whole-column state (the
max-based divide-by-100 decisions and the all-missing check), so appending
records CAN change the flags, risk_score and risk_tier of an existing
record (see the counterexample). -/
theorem c8_amended_three_flags_row_local :
    (∀ (f g : Frame) (outf outg : List RiskUtils.ScoredRow) (i j : ℕ) (r : Row)
        (sr sr2 : RiskUtils.ScoredRow),
      f.hasUtil = g.hasUtil → f.hasSpendChg = g.hasSpendChg →
      f.hasMinDue = g.hasMinDue → f.hasCashW = g.hasCashW →
      RiskUtils.compute_flags f = some outf → f.rows[i]? = some r →
      outf[i]? = some sr →
      RiskUtils.compute_flags g = some outg → g.rows[j]? = some r →
      outg[j]? = some sr2 →
        sr.flag_util_spike = sr2.flag_util_spike ∧
          sr.flag_min_due_streak = sr2.flag_min_due_streak ∧
          sr.flag_cash_advance = sr2.flag_cash_advance) ∧
    (∀ (f g : Frame) (outf outg : List Server.ScoredRow) (i j : ℕ) (r : Row)
        (sr sr2 : Server.ScoredRow),
      f.hasUtil = g.hasUtil → f.hasSpendChg = g.hasSpendChg →
      f.hasMinDue = g.hasMinDue → f.hasCashW = g.hasCashW →
      Server.compute_flags f = some outf → f.rows[i]? = some r →
      outf[i]? = some sr →
      Server.compute_flags g = some outg → g.rows[j]? = some r →
      outg[j]? = some sr2 →
        sr.flag_util_spike = sr2.flag_util_spike ∧
          sr.flag_min_due_streak = sr2.flag_min_due_streak ∧
          sr.flag_cash_advance = sr2.flag_cash_advance) := by
  constructor
  · intro f g outf outg i j r sr sr2 hu hsp hm hc hff hr hs hgg hr2 hs2
    obtain ⟨mmN, rfl⟩ := getElem_computeRU hff hr hs
    obtain ⟨mmN2, rfl⟩ := getElem_computeRU hgg hr2 hs2
    exact flagsRU_row_local r hu hsp hm hc
  · intro f g outf outg i j r sr sr2 hu hsp hm hc hff hr hs hgg hr2 hs2
    obtain ⟨mmN, rfl⟩ := getElem_computeSV hff hr hs
    obtain ⟨mmN2, rfl⟩ := getElem_computeSV hgg hr2 hs2
    exact flagsSV_row_local r hu hsp hm hc

/-- Witness for C8 (amended): the record `rowMM09` sits at index 0 of both
`frameMM1` and `frameMM2`; its three row-local flags agree across the two
tables (even though flag_merchant_shift does not, see the counterexample). -/
theorem c8_witness :
    frameMM1.rows[0]? = some rowMM09 ∧ frameMM2.rows[0]? = some rowMM09 ∧
      ((RiskUtils.scoreRow frameMM1 (some 0.9) rowMM09).flag_util_spike =
          (RiskUtils.scoreRow frameMM2 (some 0.009) rowMM09).flag_util_spike ∧
        (RiskUtils.scoreRow frameMM1 (some 0.9) rowMM09).flag_min_due_streak =
          (RiskUtils.scoreRow frameMM2 (some 0.009) rowMM09).flag_min_due_streak ∧
        (RiskUtils.scoreRow frameMM1 (some 0.9) rowMM09).flag_cash_advance =
          (RiskUtils.scoreRow frameMM2 (some 0.009) rowMM09).flag_cash_advance) := by
  have hc : clip01 (9/10) = 9/10 := clip01_of_unit (by norm_num) (by norm_num)
  have hc2 : clip01 (9/1000) = 9/1000 := clip01_of_unit (by norm_num) (by norm_num)
  have hc3 : clip01 (90/100) = 9/10 := by
    rw [show (90:ℚ)/100 = 9/10 by norm_num]
    exact clip01_of_unit (by norm_num) (by norm_num)
  have h1 : RiskUtils.compute_flags frameMM1 =
      some [RiskUtils.scoreRow frameMM1 (some 0.9) rowMM09] := by
    norm_num [RiskUtils.compute_flags, RiskUtils.normalize_merchant_mix, frameMM1,
      rowMM09, RiskUtils.mmCell, cellIf, cellIsNull, cellIsNonnum, toNumeric,
      maxGt, smax, clip01opt, hc]
  have h2 : RiskUtils.compute_flags frameMM2 =
      some [RiskUtils.scoreRow frameMM2 (some 0.009) rowMM09,
        RiskUtils.scoreRow frameMM2 (some 0.9) rowMM90] := by
    norm_num [RiskUtils.compute_flags, RiskUtils.normalize_merchant_mix, frameMM2,
      rowMM09, rowMM90, RiskUtils.mmCell, cellIf, cellIsNull, cellIsNonnum,
      toNumeric, maxGt, smax, clip01opt, hc, hc2, hc3]
  exact ⟨rfl, rfl,
    c8_amended_three_flags_row_local.1 frameMM1 frameMM2 _ _ 0 0 rowMM09 _ _
      rfl rfl rfl rfl h1 rfl rfl h2 rfl rfl⟩

/-- C7: the engine is idempotent on flags, on both paths: whenever a run
succeeds, feeding its output back in (with the derived columns flags,
score, tier, reasons and MerchantMix_norm dropped — `stripRU`/`stripSV`,
`rerunRU`/`rerunSV`) succeeds again and reproduces exactly the same five
flag values for every record. (In fact the whole scored output is
reproduced.) -/
theorem c7_engine_idempotent_on_flags :
    (∀ (f : Frame) (out : List RiskUtils.ScoredRow),
      RiskUtils.compute_flags f = some out →
        (RiskUtils.compute_flags (rerunRU out)).map (List.map flagsRU) =
          some (out.map flagsRU)) ∧
    (∀ (f : Frame) (out : List Server.ScoredRow),
      Server.compute_flags f = some out →
        (Server.compute_flags (rerunSV f out)).map (List.map flagsSV) =
          some (out.map flagsSV)) := by
  constructor
  · intro f out hf
    rw [computeRU_rerun hf]
    rfl
  · intro f out hf
    rw [computeSV_rerun hf]
    rfl

/-- Witness for C7: the concrete one-row table `frameA` on the batch path
and `frameMM1` on the serving path. -/
theorem c7_witness :
    (RiskUtils.compute_flags frameA =
        some [RiskUtils.scoreRow frameA (some 0.9) rowA]) ∧
      (RiskUtils.compute_flags
          (rerunRU [RiskUtils.scoreRow frameA (some 0.9) rowA])).map
        (List.map flagsRU) =
        some ([RiskUtils.scoreRow frameA (some 0.9) rowA].map flagsRU) ∧
      (Server.compute_flags frameMM1 =
        some [Server.scoreRow frameMM1 (some 0.9) rowMM09]) ∧
      (Server.compute_flags
          (rerunSV frameMM1 [Server.scoreRow frameMM1 (some 0.9) rowMM09])).map
        (List.map flagsSV) =
        some ([Server.scoreRow frameMM1 (some 0.9) rowMM09].map flagsSV) := by
  have hc : clip01 (9/10) = 9/10 := clip01_of_unit (by norm_num) (by norm_num)
  have hru : RiskUtils.compute_flags frameA =
      some [RiskUtils.scoreRow frameA (some 0.9) rowA] := by
    norm_num [RiskUtils.compute_flags, RiskUtils.normalize_merchant_mix, frameA,
      rowA, RiskUtils.mmCell, cellIf, cellIsNull, cellIsNonnum, toNumeric,
      maxGt, smax, clip01opt, hc]
  have hsv : Server.compute_flags frameMM1 =
      some [Server.scoreRow frameMM1 (some 0.9) rowMM09] := by
    norm_num [Server.compute_flags, Server.mmNormCol, Server.normalize_merchant_mix,
      frameMM1, rowMM09, cellIsNull, cellIsNonnum, toNumeric, maxGt, smax,
      clip01opt, hc]
  exact ⟨hru, c7_engine_idempotent_on_flags.1 frameA _ hru,
    hsv, c7_engine_idempotent_on_flags.2 frameMM1 _ hsv⟩

end Risk
